import Mathlib

/-!
Verification of the operator module of a catalog-mirroring schema tool.

The development embeds, in Lean, the `Operator` entity and the
`OperatorDict` collection of the source module `pyrseas/dbobject/operator.py`:
the CREATE-statement generator, the external-key serializer, the
desired-state key parser (`from_map`), the catalog-row normalizer
(`_from_catalog`), the signature lookup (`find`) and the dependency
extractor (`get_implied_deps`).  Helpers that the module imports from
elsewhere in the package (`quote_id`, `split_schema_obj`,
`split_func_args`, the generic attribute-spread constructor and the
class-level `objtype` tag) are modelled from the specification, as noted
on each definition.
-/

namespace Pyrseas

/-- Split a character list at the first occurrence of `c`:
`some (before, after)` when `c` occurs, `none` otherwise.  This models
Python's `str.find` followed by slicing (and `str.partition`). -/
def pySplitFirst (c : Char) : List Char → Option (List Char × List Char)
  | [] => none
  | a :: l =>
    if a = c then some ([], l)
    else
      match pySplitFirst c l with
      | none => none
      | some (pre, post) => some (a :: pre, post)

/-- Python's `str.split(sep)` for a one-character separator: always returns
at least one piece, and `splitOnChar c [] = [[]]` just as `''.split(',') == ['']`. -/
def splitOnChar (c : Char) : List Char → List (List Char)
  | [] => [[]]
  | a :: l =>
    let r := splitOnChar c l
    if a = c then [] :: r
    else
      match r with
      | [] => [[a]]
      | h :: t => (a :: h) :: t

/-- The characters Python's `str.lstrip()` removes: exactly those for
which `str.isspace()` is true — tab through carriage return
(U+0009–U+000D), the separator controls U+001C–U+001F, the space,
next line (U+0085), no-break space (U+00A0), the Ogham space mark
(U+1680), the Unicode space separators U+2000–U+200A, U+202F, U+205F
and U+3000, and the line and paragraph separators U+2028 and U+2029. -/
def isPySpace (c : Char) : Bool :=
  let n := c.toNat
  (0x09 ≤ n && n ≤ 0x0d) || n = 0x20 || (0x1c ≤ n && n ≤ 0x1f) ||
  n = 0x85 || n = 0xa0 || n = 0x1680 || (0x2000 ≤ n && n ≤ 0x200a) ||
  n = 0x2028 || n = 0x2029 || n = 0x202f || n = 0x205f || n = 0x3000

/-- Python's `str.lstrip()` on a character list. -/
def pyLstrip (l : List Char) : List Char := l.dropWhile isPySpace

/-- Rebuild a `String` from a character list. -/
def strOfList (l : List Char) : String := ⟨l⟩

/-- The in-memory representation of one operator (class `Operator`).
Optional attributes are Python attributes that may be absent
(`hasattr`-checked), hence `Option` fields; `leftarg`/`rightarg` use the
first-class sentinel string `"NONE"`, never absence. -/
structure Operator where
  schema : String
  name : String
  leftarg : String
  rightarg : String
  procedure : Option String := none
  commutator : Option String := none
  negator : Option String := none
  restrict : Option String := none
  join : Option String := none
  hashes : Option Bool := none
  merges : Option Bool := none
  owner : Option String := none
  description : Option String := none
  oldname : Option String := none
  oid : Option Nat := none
deriving DecidableEq, Repr

/-- Modelled from the spec: the class-level object-type tag is defined on
the base class outside this module; the spec fixes the serialized
(lowercased) tag to `operator`, so the class tag is `OPERATOR`. -/
def Operator.objtype (_ : Operator) : String := "OPERATOR"

/-- Lowercase a string, as Python's `str.lower()` on ASCII tags. -/
def strLower (s : String) : String := ⟨s.data.map Char.toLower⟩

/-- `Operator.extern_key`: the external-map key
`'%s %s(%s, %s)' % (objtype.lower(), name, leftarg, rightarg)`. -/
def Operator.extern_key (op : Operator) : String :=
  strLower op.objtype ++ " " ++ op.name ++ "(" ++ op.leftarg ++ ", " ++
    op.rightarg ++ ")"

/-- Modelled from the spec: helper `quote_id` (imported from the package
root, outside this module) applies identifier quoting to a name — the
name is returned unquoted when it is a regular lower-case identifier and
double-quoted otherwise. -/
def quote_id (name : String) : String :=
  let regular : Bool :=
    match name.data with
    | [] => false
    | c :: cs =>
      ((('a' ≤ c && c ≤ 'z') || c = '_') &&
        cs.all fun d => ('a' ≤ d && d ≤ 'z') || ('0' ≤ d && d ≤ '9') || d = '_')
  if regular then name else "\"" ++ name ++ "\""

/-- `Operator.qualname`: Python's
`self.schema == 'public' and self.name or "%s.%s" % (quote_id(self.schema), self.name)`.
The `and`/`or` chain falls through to the qualified form whenever
`self.name` is falsy (the empty string). -/
def Operator.qualname (op : Operator) : String :=
  if op.schema = "public" ∧ op.name ≠ "" then op.name
  else quote_id op.schema ++ "." ++ op.name

/-- `Operator.identifier`: `"%s(%s, %s)" % (qualname(), leftarg, rightarg)`. -/
def Operator.identifier (op : Operator) : String :=
  op.qualname ++ "(" ++ op.leftarg ++ ", " ++ op.rightarg ++ ")"

/-- The `opt_clauses` list built by `Operator.create`, translated
statement by statement: each Python `if cond: opt_clauses.append(x)`
becomes one conditional append to the accumulator. -/
def Operator.optClauses (op : Operator) : List String :=
  let cls : List String := []
  let cls := if op.leftarg ≠ "NONE" then cls ++ ["LEFTARG = " ++ op.leftarg] else cls
  let cls := if op.rightarg ≠ "NONE" then cls ++ ["RIGHTARG = " ++ op.rightarg] else cls
  let cls := match op.commutator with
    | some c => cls ++ ["COMMUTATOR = OPERATOR(" ++ c ++ ")"]
    | none => cls
  let cls := match op.negator with
    | some n => cls ++ ["NEGATOR = OPERATOR(" ++ n ++ ")"]
    | none => cls
  let cls := match op.restrict with
    | some r => cls ++ ["RESTRICT = " ++ r]
    | none => cls
  let cls := match op.join with
    | some j => cls ++ ["JOIN = " ++ j]
    | none => cls
  let cls := if op.hashes = some true then cls ++ ["HASHES"] else cls
  let cls := if op.merges = some true then cls ++ ["MERGES"] else cls
  cls

/-- `Operator.create`: the structural CREATE statement.  Python reads
`self.procedure` unconditionally, so an entity without a `procedure`
attribute has no defined result (`none`).  The `commentable`/`ownable`
decorations only wrap this structural text and are applied outside the
module, so they are not part of the structural statement. -/
def Operator.create (op : Operator) : Option (List String) :=
  op.procedure.map fun proc =>
    let cls := op.optClauses
    ["CREATE OPERATOR " ++ op.qualname ++ " (\n    PROCEDURE = " ++ proc ++
      (if cls.isEmpty then "" else ",\n    ") ++
      String.intercalate ",\n    " cls ++ ")"]

/-- The optional clauses of the CREATE statement as described by the
spec: the fixed order LEFTARG, RIGHTARG, COMMUTATOR, NEGATOR, RESTRICT,
JOIN, HASHES, MERGES, each contributed exactly when applicable. -/
def specClauses (op : Operator) : List String :=
  (if op.leftarg ≠ "NONE" then ["LEFTARG = " ++ op.leftarg] else []) ++
  (if op.rightarg ≠ "NONE" then ["RIGHTARG = " ++ op.rightarg] else []) ++
  (match op.commutator with
    | some c => ["COMMUTATOR = OPERATOR(" ++ c ++ ")"]
    | none => []) ++
  (match op.negator with
    | some n => ["NEGATOR = OPERATOR(" ++ n ++ ")"]
    | none => []) ++
  (match op.restrict with
    | some r => ["RESTRICT = " ++ r]
    | none => []) ++
  (match op.join with
    | some j => ["JOIN = " ++ j]
    | none => []) ++
  (if op.hashes = some true then ["HASHES"] else []) ++
  (if op.merges = some true then ["MERGES"] else [])

lemma ite_append_push (p : Prop) [Decidable p] (x : List String) (a : String) :
    (if p then x ++ [a] else x) = x ++ (if p then [a] else []) := by
  split_ifs <;> simp

lemma opt_append_push (o : Option String) (x : List String) (f : String → String) :
    (match o with
      | some c => x ++ [f c]
      | none => x) =
      x ++ (match o with
        | some c => [f c]
        | none => []) := by
  cases o <;> simp

lemma optClauses_eq_specClauses (op : Operator) :
    op.optClauses = specClauses op := by
  rcases op with ⟨sch, nm, la, ra, proc, com, neg, res, jn, hsh, mrg, own, dsc, old, oidv⟩
  cases com <;> cases neg <;> cases res <;> cases jn <;>
    (simp only [Operator.optClauses, specClauses];
     simp only [ite_append_push];
     simp [List.append_assoc])

/-- One row of the fixed catalog query of `OperatorDict.query`: the
columns as the driver delivers them (operand and helper names as
strings, capability flags as booleans). -/
structure CatalogRow where
  oid : Nat
  schema : String
  name : String
  owner : String
  leftarg : String
  rightarg : String
  procedure : String
  commutator : String
  negator : String
  restrict : String
  join : String
  hashes : Bool
  merges : Bool
  description : Option String := none
deriving DecidableEq, Repr

/-- The per-row normalization of `OperatorDict._from_catalog` followed by
`Operator(**oper.__dict__)`: operands `'-'` become the sentinel `NONE`;
a commutator/negator of `'0'` and a restrict/join of `'-'` are deleted
before the spread, so they are absent on the entity; every remaining row
attribute — including a false `hashes`/`merges` boolean — is spread into
the entity unchanged (the constructor is modelled from the spec as a
dynamic field spread, §9 of the spec). -/
def rowToOperator (row : CatalogRow) : Operator :=
  { schema := row.schema
    name := row.name
    leftarg := if row.leftarg = "-" then "NONE" else row.leftarg
    rightarg := if row.rightarg = "-" then "NONE" else row.rightarg
    procedure := some row.procedure
    commutator := if row.commutator = "0" then none else some row.commutator
    negator := if row.negator = "0" then none else some row.negator
    restrict := if row.restrict = "-" then none else some row.restrict
    join := if row.join = "-" then none else some row.join
    hashes := some row.hashes
    merges := some row.merges
    owner := some row.owner
    description := row.description
    oldname := none
    oid := some row.oid }

/-- The primary key of the collection: `(schema, name)` plus the operand
list, matching the Python tuple `(schema, name, leftarg, rightarg)`
(`find` may build shorter or longer tuples, hence the list). -/
abbrev OperKey := String × String × List String

/-- The keyed collection of operators; insertion prepends, and lookup
takes the first match, so later insertions shadow earlier ones exactly
as Python dict assignment overwrites. -/
abbrev OperColl := List (OperKey × Operator)

/-- Dictionary lookup: `self.get(key)` — `some` entity or `none`. -/
def lookupKey (d : OperColl) (k : OperKey) : Option Operator :=
  match d with
  | [] => none
  | (k', v) :: rest => if k' = k then some v else lookupKey rest k

/-- `OperatorDict._from_catalog`: normalize each row and index it under
`(schema, name, leftarg, rightarg)` (with the normalized operands), and
also under its internal id. -/
def from_catalog (rows : List CatalogRow) : OperColl × List (Nat × Operator) :=
  rows.foldl
    (fun acc row =>
      let oper := rowToOperator row
      (((oper.schema, oper.name, [oper.leftarg, oper.rightarg]), oper) :: acc.1,
        (row.oid, oper) :: acc.2))
    ([], [])

/-- The hard errors of the desired-state loader: the two `KeyError`s of
`from_map`, the `ValueError` Python raises when the comma-split of the
parenthesized content does not destructure into exactly two names, and
the `ValueError` for an empty specification. -/
inductive LoadError where
  | malformedKey (key : String)
  | malformedSig (sig : String)
  | unpackMismatch (parts : Nat)
  | emptySpec (name : String)
deriving DecidableEq, Repr

/-- The key parser of `OperatorDict.from_map`, line by line:
`key.partition(' ')` with the tag check, `opr.find('(')` with the
trailing-`)` check, the comma split destructured into exactly two
operands, and `lstrip` of the right operand. -/
def parseOperKey (key : String) : Except LoadError (String × String × String) :=
  match pySplitFirst ' ' key.data with
  | none => .error (.malformedKey key)
  | some (objtype, opr) =>
    if objtype ≠ "operator".data then .error (.malformedKey key)
    else
      match pySplitFirst '(' opr with
      | none => .error (.malformedSig (strOfList opr))
      | some (nm, post) =>
        if opr.getLast? ≠ some ')' then .error (.malformedSig (strOfList opr))
        else
          match splitOnChar ',' post.dropLast with
          | [l, r] => .ok (strOfList nm, strOfList l, strOfList (pyLstrip r))
          | parts => .error (.unpackMismatch parts.length)

/-- A value in a desired-state attribute map. -/
inductive AttrVal where
  | str (v : String)
  | boolv (v : Bool)
deriving DecidableEq, Repr

/-- A desired-state specification for one key (the YAML attribute map;
an absent value is the empty map, as both are falsy in Python). -/
abbrev AttrMap := List (String × AttrVal)

/-- Python `setattr(oper, attr, val)` for the attributes the entity
carries; attributes outside the modelled record are not represented. -/
def Operator.setAttr (op : Operator) (attr : String) (v : AttrVal) : Operator :=
  match attr, v with
  | "procedure", .str s => { op with procedure := some s }
  | "commutator", .str s => { op with commutator := some s }
  | "negator", .str s => { op with negator := some s }
  | "restrict", .str s => { op with restrict := some s }
  | "join", .str s => { op with join := some s }
  | "hashes", .boolv b => { op with hashes := some b }
  | "merges", .boolv b => { op with merges := some b }
  | "owner", .str s => { op with owner := some s }
  | "description", .str s => { op with description := some s }
  | "oldname", .str s => { op with oldname := some s }
  | _, _ => op

/-- The `for attr, val in inoper.items(): setattr(oper, attr, val)` loop. -/
def applyAttrs (op : Operator) (attrs : AttrMap) : Operator :=
  attrs.foldl (fun o kv => o.setAttr kv.1 kv.2) op

/-- One iteration of `OperatorDict.from_map` for a single key: parse the
key, construct the entity, insert it into the collection, only then
check for an empty specification, and finally apply the attributes (the
Python entity is mutated in place, so on success the stored entity
carries the attributes).  Returns the updated collection and the error,
if any. -/
def from_map_key (sch : String) (d : OperColl) (key : String) (inoper : AttrMap) :
    OperColl × Option LoadError :=
  match parseOperKey key with
  | .error e => (d, some e)
  | .ok (nm, l, r) =>
    let oper : Operator := { schema := sch, name := nm, leftarg := l, rightarg := r }
    if inoper.isEmpty then
      (((sch, nm, [l, r]), oper) :: d, some (.emptySpec nm))
    else
      (((sch, nm, [l, r]), applyAttrs oper inoper) :: d, none)

/-- `OperatorDict.from_map` over the whole input map: keys are processed
in order and the first error aborts the load, leaving the collection in
its partially mutated state. -/
def from_map (sch : String) (entries : List (String × AttrMap)) (d : OperColl) :
    OperColl × Option LoadError :=
  match entries with
  | [] => (d, none)
  | (key, v) :: rest =>
    let step := from_map_key sch d key v
    match step.2 with
    | some e => (step.1, some e)
    | none => from_map sch rest step.1

/-- Modelled from the spec: helper `split_schema_obj` (imported from the
package root, outside this module) splits a possibly schema-qualified
name at the dot into `(schema, object)`, defaulting the schema to the
supplied one, or to `public` when none is supplied. -/
def split_schema_obj (obj : String) (sch : Option String) : String × String :=
  match pySplitFirst '.' obj.data with
  | some (pre, post) => (strOfList pre, strOfList post)
  | none => (sch.getD "public", obj)

/-- Modelled from the spec: helper `split_func_args` (imported from the
package root, outside this module) splits a signature `name(left,right)`
into the name and the operand list with the same parsing rules as the
desired-state key parser: split at the first `(`, require a trailing
`)`, split the content at the comma into exactly two operands and strip
leading whitespace from the right one. -/
def split_func_args (nm : String) : Option (String × List String) :=
  match pySplitFirst '(' nm.data with
  | none => none
  | some (fname, post) =>
    if nm.data.getLast? ≠ some ')' then none
    else
      match splitOnChar ',' post.dropLast with
      | [l, r] => some (strOfList fname, [strOfList l, strOfList (pyLstrip r)])
      | _ => none

/-- `OperatorDict.find`: parse the signature into schema, name and
arguments and look the key up, returning the entity found, else `none`. -/
def OperatorDict.find (d : OperColl) (oper : String) : Option Operator :=
  let sn := split_schema_obj oper none
  match split_func_args sn.2 with
  | none => none
  | some (name, args) => lookupKey d (sn.1, name, args)

/-- A reference to a sibling object, as stored in the dependency set.
The extractor only ever inserts type and function references; the
operator constructor exists so that "the set never contains an operator
— in particular not the entity itself" is expressible. -/
inductive DepObj where
  | typ (name : String)
  | func (schema : String) (name : String) (args : String)
  | oper (schema : String) (name : String) (leftarg : String) (rightarg : String)
deriving DecidableEq, Repr

/-- The read-only sibling collections `db.types` and `db.functions`:
`types` is the signature lookup `db.types.find` (returning the identity
of the type found, if any), `functions` is keyed membership
`(schema, name, args) in db.functions`, the object stored at a key being
identified by that key. -/
structure Database where
  types : String → Option String
  functions : String × String × String → Bool

/-- `deps.add(x)` on a Python set, modelled on a duplicate-free list. -/
def addDep (l : List DepObj) (d : DepObj) : List DepObj :=
  if d ∈ l then l else l ++ [d]

/-- The fixed restriction-selectivity argument signature. -/
def restrictArgs : String := "internal, oid, internal, integer"

/-- `Operator.get_implied_deps`, statement by statement.  The base-class
contribution is modelled from the spec as empty (§4.4 lists the three
resolution steps as the whole algorithm).  Python reads `self.procedure`
unconditionally, so an entity without it has no defined result.  The
restrict step guards with `getattr(self, 'restrict', None)` used as a
truth value, so an empty-string restrict is skipped. -/
def Operator.get_implied_deps (op : Operator) (db : Database) :
    Option (List DepObj) :=
  match op.procedure with
  | none => none
  | some proc =>
    let deps : List DepObj := []
    let deps := match db.types op.leftarg with
      | some t => addDep deps (.typ t)
      | none => deps
    let deps := match db.types op.rightarg with
      | some t => addDep deps (.typ t)
      | none => deps
    let fsn := split_schema_obj proc (some op.schema)
    let fargs := String.intercalate ", "
      (List.filter (fun t => t ≠ "NONE") [op.leftarg, op.rightarg])
    let deps := if db.functions (fsn.1, fsn.2, fargs) then
        addDep deps (.func fsn.1 fsn.2 fargs)
      else deps
    let deps := match op.restrict with
      | some r =>
        if r = "" then deps
        else
          let rsn := split_schema_obj r none
          if db.functions (rsn.1, rsn.2, restrictArgs) then
            addDep deps (.func rsn.1 rsn.2 restrictArgs)
          else deps
      | none => deps
    some deps

/-- The dependency candidates contributed by the procedure resolution,
as the spec describes them: split the procedure into schema and name,
join the non-`NONE` operand types with comma-space, and include the
function exactly when the lookup succeeds. -/
def procCandidates (db : Database) (op : Operator) (proc : String) : List DepObj :=
  let fsn := split_schema_obj proc (some op.schema)
  let fargs := String.intercalate ", "
    (List.filter (fun t => t ≠ "NONE") [op.leftarg, op.rightarg])
  if db.functions (fsn.1, fsn.2, fargs) then [.func fsn.1 fsn.2 fargs] else []

/-- The dependency candidate contributed by a present, non-empty
restrict helper, resolved with the fixed signature. -/
def restrictCandidates (db : Database) (op : Operator) : List DepObj :=
  match op.restrict with
  | some r =>
    if r = "" then []
    else
      let rsn := split_schema_obj r none
      if db.functions (rsn.1, rsn.2, restrictArgs) then
        [.func rsn.1 rsn.2 restrictArgs]
      else []
  | none => []

/-- All dependency candidates in resolution order: the two operand-type
lookups, the procedure and the restrict helper. -/
def depCandidates (db : Database) (op : Operator) (proc : String) : List DepObj :=
  ((db.types op.leftarg).map DepObj.typ).toList ++
  ((db.types op.rightarg).map DepObj.typ).toList ++
  procCandidates db op proc ++ restrictCandidates db op

/-- The extractor adds exactly the candidates, in order, with set
semantics (shared bridge between the per-claim theorems). -/
lemma get_implied_deps_eq_foldl (db : Database) (op : Operator) (proc : String)
    (h : op.procedure = some proc) :
    op.get_implied_deps db = some (List.foldl addDep [] (depCandidates db op proc)) := by
  unfold Operator.get_implied_deps depCandidates procCandidates restrictCandidates
  rw [h]
  rcases db.types op.leftarg with _ | t1 <;>
    rcases db.types op.rightarg with _ | t2 <;>
    rcases op.restrict with _ | r <;>
    simp only [Option.map_none, Option.map_some, Option.toList_none, Option.toList_some,
      List.nil_append, List.append_nil, List.singleton_append, List.cons_append,
      List.foldl_cons, List.foldl_nil, List.foldl_append] <;>
    split_ifs <;>
    simp [List.foldl_append]

lemma str_append_data (a b : String) : (a ++ b).data = a.data ++ b.data := rfl

lemma strOfList_data (s : String) : strOfList s.data = s := rfl

lemma pySplitFirst_eq_some {c : Char} :
    ∀ {l pre post : List Char}, pySplitFirst c l = some (pre, post) →
      l = pre ++ c :: post ∧ c ∉ pre := by
  intro l
  induction l with
  | nil => intro pre post h; simp [pySplitFirst] at h
  | cons a t ih =>
    intro pre post h
    by_cases hac : a = c
    · subst hac
      simp [pySplitFirst] at h
      obtain ⟨h1, h2⟩ := h
      subst h1; subst h2
      simp
    · simp [pySplitFirst, hac] at h
      rcases hrec : pySplitFirst c t with _ | ⟨p, q⟩
      · rw [hrec] at h; simp at h
      · rw [hrec] at h
        simp at h
        obtain ⟨h1, h2⟩ := h
        obtain ⟨hl, hn⟩ := ih hrec
        subst h1; subst h2
        constructor
        · simp [hl]
        · intro hmem
          rcases List.mem_cons.mp hmem with hx | hx
          · exact hac hx.symm
          · exact hn hx

lemma pySplitFirst_prefix_free (c : Char) :
    ∀ (pre post : List Char), c ∉ pre →
      pySplitFirst c (pre ++ c :: post) = some (pre, post) := by
  intro pre
  induction pre with
  | nil => intro post _; simp [pySplitFirst]
  | cons a t ih =>
    intro post h
    have hac : a ≠ c := fun hc => h (by simp [hc])
    have ht : c ∉ t := fun hc => h (by simp [hc])
    simp only [List.cons_append, pySplitFirst, if_neg hac, List.append_eq, ih post ht]

lemma pySplitFirst_eq_none_of_not_mem {c : Char} {l : List Char} (h : c ∉ l) :
    pySplitFirst c l = none := by
  rcases hrec : pySplitFirst c l with _ | ⟨p, q⟩
  · rfl
  · obtain ⟨hl, _⟩ := pySplitFirst_eq_some hrec
    exact absurd (show c ∈ l by simp [hl]) h

lemma splitOnChar_of_not_mem (c : Char) :
    ∀ (l : List Char), c ∉ l → splitOnChar c l = [l] := by
  intro l
  induction l with
  | nil => intro _; simp [splitOnChar]
  | cons a t ih =>
    intro h
    have hac : a ≠ c := fun hc => h (by simp [hc])
    have ht : c ∉ t := fun hc => h (by simp [hc])
    simp only [splitOnChar, if_neg hac, ih ht]

lemma splitOnChar_boundary (c : Char) :
    ∀ (pre post : List Char), c ∉ pre →
      splitOnChar c (pre ++ c :: post) = pre :: splitOnChar c post := by
  intro pre
  induction pre with
  | nil => intro post _; simp [splitOnChar]
  | cons a t ih =>
    intro post h
    have hac : a ≠ c := fun hc => h (by simp [hc])
    have ht : c ∉ t := fun hc => h (by simp [hc])
    simp only [List.cons_append, splitOnChar, if_neg hac, List.append_eq, ih post ht]

lemma addDep_mem {l : List DepObj} {x d : DepObj} :
    d ∈ addDep l x → d ∈ l ∨ d = x := by
  unfold addDep
  split_ifs with h
  · exact fun hd => Or.inl hd
  · intro hd
    rcases List.mem_append.mp hd with hd | hd
    · exact Or.inl hd
    · simp at hd; exact Or.inr hd

lemma addDep_nodup {l : List DepObj} (x : DepObj) (h : l.Nodup) :
    (addDep l x).Nodup := by
  unfold addDep
  split_ifs with hm
  · exact h
  · simpa [List.nodup_append, h] using hm

lemma foldl_addDep_nodup :
    ∀ (cands : List DepObj) (acc : List DepObj), acc.Nodup →
      (List.foldl addDep acc cands).Nodup := by
  intro cands
  induction cands with
  | nil => intro acc h; simpa using h
  | cons x t ih => intro acc h; exact ih (addDep acc x) (addDep_nodup x h)

lemma mem_foldl_addDep :
    ∀ (cands : List DepObj) (acc : List DepObj) (d : DepObj),
      d ∈ List.foldl addDep acc cands → d ∈ acc ∨ d ∈ cands := by
  intro cands
  induction cands with
  | nil => intro acc d h; exact Or.inl (by simpa using h)
  | cons x t ih =>
    intro acc d h
    rcases ih (addDep acc x) d h with h' | h'
    · rcases addDep_mem h' with h'' | h''
      · exact Or.inl h''
      · exact Or.inr (by simp [h''])
    · exact Or.inr (by simp [h'])

lemma str_eq_of_data_eq {a b : String} (h : a.data = b.data) : a = b := by
  cases a; cases b; exact congrArg String.mk h

lemma op_space_append (sig : String) :
    ("operator " ++ sig).data = "operator".data ++ ' ' :: sig.data := rfl

lemma pyLstrip_cons_space (x : List Char) : pyLstrip (' ' :: x) = pyLstrip x := by
  simp [pyLstrip, List.dropWhile_cons, isPySpace]

/-- Computation of the desired-state key parser on a key of the shape
`operator <nm>(<l>,<rr>)` whose parts respect the separator characters. -/
lemma parseOperKey_ok (key nm l rr : String)
    (hkey : key.data = "operator".data ++ ' ' ::
      (nm.data ++ '(' :: ((l.data ++ ',' :: rr.data) ++ [')'])))
    (h1 : '(' ∉ nm.data) (h2 : ',' ∉ l.data) (h3 : ',' ∉ rr.data) :
    parseOperKey key = .ok (nm, l, strOfList (pyLstrip rr.data)) := by
  have hsp : (' ' : Char) ∉ ("operator" : String).data := by decide
  have hshift : nm.data ++ '(' :: ((l.data ++ ',' :: rr.data) ++ [')'])
      = (nm.data ++ '(' :: (l.data ++ ',' :: rr.data)) ++ [')'] := by simp
  unfold parseOperKey
  rw [hkey, pySplitFirst_prefix_free ' ' _ _ hsp]
  simp only [ne_eq, not_true_eq_false, if_false, ite_false, if_neg]
  rw [pySplitFirst_prefix_free '(' _ _ h1]
  simp only []
  rw [hshift, List.getLast?_concat, List.dropLast_concat]
  have hsplit : splitOnChar ',' (l.data ++ ',' :: rr.data)
      = [l.data, rr.data] := by
    rw [splitOnChar_boundary ',' _ _ h2, splitOnChar_of_not_mem ',' _ h3]
  simp [hsplit, strOfList_data]

lemma extern_key_data (op : Operator) :
    op.extern_key.data
      = "operator".data ++ ' ' :: (op.name.data ++ '(' ::
          ((op.leftarg.data ++ ',' :: (' ' :: op.rightarg.data)) ++ [')'])) := by
  have e1 : (strLower (Operator.objtype op)).data = ['o','p','e','r','a','t','o','r'] := rfl
  have e2 : (" " : String).data = [' '] := rfl
  have e3 : ("(" : String).data = ['('] := rfl
  have e4 : (", " : String).data = [',', ' '] := rfl
  have e5 : (")" : String).data = [')'] := rfl
  have e6 : ("operator" : String).data = ['o','p','e','r','a','t','o','r'] := rfl
  simp only [Operator.extern_key, str_append_data, e1, e2, e3, e4, e5, e6]
  simp [List.append_assoc]

/-- C2 (amended): serializing an operator with `extern_key` and feeding
the key back through the desired-state key parser reproduces the
`(name, leftarg, rightarg)` triple — and hence, together with the
externally supplied owning schema, the full identity tuple — provided
the name contains no `(`, the operand names contain no `,`, and the
right operand has no leading whitespace. -/
theorem extern_key_roundtrip (op : Operator)
    (h1 : '(' ∉ op.name.data)
    (h2 : ',' ∉ op.leftarg.data)
    (h3 : ',' ∉ op.rightarg.data)
    (h4 : pyLstrip op.rightarg.data = op.rightarg.data) :
    parseOperKey op.extern_key = .ok (op.name, op.leftarg, op.rightarg) ∧
    ∀ (d : OperColl),
      lookupKey (from_map_key op.schema d op.extern_key []).1
          (op.schema, op.name, [op.leftarg, op.rightarg])
        = some { schema := op.schema, name := op.name,
                 leftarg := op.leftarg, rightarg := op.rightarg } := by
  have h3' : ',' ∉ (strOfList (' ' :: op.rightarg.data)).data := by
    intro hmem
    rcases List.mem_cons.mp hmem with hx | hx
    · exact absurd hx (by decide)
    · exact h3 hx
  have hstep := parseOperKey_ok op.extern_key op.name op.leftarg
    (strOfList (' ' :: op.rightarg.data)) (extern_key_data op) h1 h2 h3'
  rw [show (strOfList (' ' :: op.rightarg.data)).data = ' ' :: op.rightarg.data from rfl,
    pyLstrip_cons_space, h4, strOfList_data] at hstep
  refine ⟨hstep, ?_⟩
  intro d
  unfold from_map_key
  rw [hstep]
  simp [lookupKey]

/-- C2 counterexample: an operator whose name contains `(` does not
round-trip — the parser splits at the first `(` and returns a different
identity triple. -/
theorem extern_key_roundtrip_cex :
    parseOperKey
        (Operator.extern_key
          { schema := "public", name := "a(b", leftarg := "x", rightarg := "y" })
      = .ok ("a", "b(x", "y") ∧
    ("a", "b(x", "y") ≠ ("a(b", "x", "y") := ⟨rfl, by decide⟩

/-- C2 witness: a concrete well-behaved operator round-trips. -/
theorem extern_key_roundtrip_witness :
    parseOperKey
        (Operator.extern_key
          { schema := "public", name := "#>=#", leftarg := "hstore", rightarg := "hstore" })
      = .ok ("#>=#", "hstore", "hstore") :=
  (extern_key_roundtrip
    { schema := "public", name := "#>=#", leftarg := "hstore", rightarg := "hstore" }
    (by decide) (by decide) (by decide) (by decide)).1

/-- C4: the desired-state loader's hard errors, in the order the code
checks them: a Malformed-Key error for a key not starting with the tag
`operator` followed by a space; a Malformed-Signature error for a tagged
key whose signature lacks a `(` or does not end with `)`; an
Empty-Specification error for a key that parses but carries no
attributes; and the error aborts the load synchronously. -/
theorem from_map_hard_errors (sch : String) (d : OperColl) (key : String)
    (attrs : AttrMap) :
    ((¬ ∃ rest, key = "operator " ++ rest) →
      (from_map_key sch d key attrs).2 = some (.malformedKey key)) ∧
    (∀ sig : String, key = "operator " ++ sig →
      ('(' ∉ sig.data ∨ sig.data.getLast? ≠ some ')') →
      (from_map_key sch d key attrs).2 = some (.malformedSig sig)) ∧
    (∀ nm l r : String, parseOperKey key = .ok (nm, l, r) → attrs = [] →
      (from_map_key sch d key attrs).2 = some (.emptySpec nm)) ∧
    (∀ (rest : List (String × AttrMap)) (e : LoadError),
      (from_map_key sch d key attrs).2 = some e →
      from_map sch ((key, attrs) :: rest) d
        = ((from_map_key sch d key attrs).1, some e)) := by
  refine ⟨?_, ?_, ?_, ?_⟩
  · intro hno
    unfold from_map_key parseOperKey
    rcases hsp : pySplitFirst ' ' key.data with _ | ⟨ot, opr⟩
    · rfl
    · by_cases hot : ot = "operator".data
      · exfalso
        obtain ⟨hl, _⟩ := pySplitFirst_eq_some hsp
        subst hot
        exact hno ⟨strOfList opr, str_eq_of_data_eq (by rw [hl, op_space_append, strOfList_data])⟩
      · simp [hot]
  · intro sig hk hbad
    subst hk
    have hsp : (' ' : Char) ∉ ("operator" : String).data := by decide
    unfold from_map_key parseOperKey
    rw [op_space_append, pySplitFirst_prefix_free ' ' _ _ hsp]
    simp only [ne_eq, not_true_eq_false, if_false, ite_false, if_neg]
    rcases hpar : pySplitFirst '(' sig.data with _ | ⟨nm, post⟩
    · simp [strOfList_data]
    · rcases hbad with hbad | hbad
      · exact absurd hbad (by
          obtain ⟨hl, _⟩ := pySplitFirst_eq_some hpar
          simp [hl])
      · simp [hbad, strOfList_data]
  · intro nm l r hp hempty
    subst hempty
    unfold from_map_key
    rw [hp]
    rfl
  · intro rest e he
    unfold from_map
    dsimp only
    rw [he]

/-- C9: on an empty specification for a well-formed key, the entity has
already been inserted into the collection under its full key when the
Empty-Specification error is raised — the load is not atomic. -/
theorem from_map_inserts_before_empty_check (sch : String) (d : OperColl)
    (key nm l r : String) (hp : parseOperKey key = .ok (nm, l, r)) :
    (from_map_key sch d key []).2 = some (.emptySpec nm) ∧
    lookupKey (from_map_key sch d key []).1 (sch, nm, [l, r])
      = some { schema := sch, name := nm, leftarg := l, rightarg := r } := by
  unfold from_map_key
  rw [hp]
  simp [lookupKey]

/-- C9 witness: a concrete empty specification leaves the partially
constructed entity in the collection and raises. -/
theorem from_map_inserts_before_empty_check_witness :
    (from_map_key "s" [] "operator +(int4, int4)" []).2
      = some (.emptySpec "+") ∧
    lookupKey (from_map_key "s" [] "operator +(int4, int4)" []).1
        ("s", "+", ["int4", "int4"])
      = some { schema := "s", name := "+", leftarg := "int4", rightarg := "int4" } :=
  from_map_inserts_before_empty_check "s" [] "operator +(int4, int4)"
    "+" "int4" "int4" rfl

/-- C10: a key that passes the tag and parenthesis checks but whose
parenthesized content does not split at the comma into exactly two
pieces fails with the unpacking mismatch (Python's unhandled
`ValueError` from tuple destructuring), which is not the
Malformed-Signature error. -/
theorem from_map_unpack_mismatch (key sig : String) (nm post : List Char)
    (hk : key = "operator " ++ sig)
    (hpar : pySplitFirst '(' sig.data = some (nm, post))
    (hlast : sig.data.getLast? = some ')')
    (hcnt : (splitOnChar ',' post.dropLast).length ≠ 2) :
    parseOperKey key
      = .error (.unpackMismatch (splitOnChar ',' post.dropLast).length) ∧
    ∀ s : String,
      LoadError.unpackMismatch (splitOnChar ',' post.dropLast).length
        ≠ .malformedSig s := by
  constructor
  · subst hk
    have hsp : (' ' : Char) ∉ ("operator" : String).data := by decide
    unfold parseOperKey
    rw [op_space_append, pySplitFirst_prefix_free ' ' _ _ hsp]
    simp only [ne_eq, not_true_eq_false, if_false, ite_false, if_neg]
    rw [hpar]
    simp only [hlast, ne_eq, not_true_eq_false, if_false, ite_false]
    rcases hs : splitOnChar ',' post.dropLast with _ | ⟨a, _ | ⟨b, _ | ⟨c, t⟩⟩⟩
    · simp
    · simp
    · exact absurd (by rw [hs]; rfl) hcnt
    · simp
  · intro s h
    exact LoadError.noConfusion h

/-- C10 witness: the key `operator @(box)` (one operand, no comma)
reaches the destructuring step and fails with the unpacking mismatch. -/
theorem from_map_unpack_mismatch_witness :
    parseOperKey "operator @(box)"
      = .error (.unpackMismatch
          (splitOnChar ',' (['b','o','x',')'] : List Char).dropLast).length) ∧
    ∀ s : String,
      LoadError.unpackMismatch
          (splitOnChar ',' (['b','o','x',')'] : List Char).dropLast).length
        ≠ .malformedSig s :=
  from_map_unpack_mismatch "operator @(box)" "@(box)" ['@'] ['b','o','x',')']
    rfl rfl rfl (by decide)

/-- C4 witness: the key `operator` (tag without the following space)
raises the Malformed-Key error. -/
theorem from_map_hard_errors_witness :
    (from_map_key "public" [] "operator" []).2
      = some (.malformedKey "operator") := by
  apply (from_map_hard_errors "public" [] "operator" []).1
  rintro ⟨rest, hre⟩
  have hlen := congrArg String.length hre
  rw [String.length_append] at hlen
  rw [show ("operator" : String).length = 8 from rfl,
    show ("operator " : String).length = 9 from rfl] at hlen
  omega

lemma sig_data (nm l r : String) :
    (nm ++ "(" ++ l ++ "," ++ r ++ ")").data
      = nm.data ++ '(' :: ((l.data ++ ',' :: r.data) ++ [')']) := by
  have e3 : ("(" : String).data = ['('] := rfl
  have e4 : ("," : String).data = [','] := rfl
  have e5 : (")" : String).data = [')'] := rfl
  simp only [str_append_data, e3, e4, e5]
  simp [List.append_assoc]

lemma split_func_args_ok (s nm l r : String)
    (hs : s.data = nm.data ++ '(' :: ((l.data ++ ',' :: r.data) ++ [')']))
    (h1 : '(' ∉ nm.data) (h2 : ',' ∉ l.data) (h3 : ',' ∉ r.data) :
    split_func_args s = some (nm, [l, strOfList (pyLstrip r.data)]) := by
  have hshift : nm.data ++ '(' :: ((l.data ++ ',' :: r.data) ++ [')'])
      = (nm.data ++ '(' :: (l.data ++ ',' :: r.data)) ++ [')'] := by simp
  unfold split_func_args
  rw [hs, pySplitFirst_prefix_free '(' _ _ h1]
  simp only []
  rw [hshift, List.getLast?_concat, List.dropLast_concat]
  have hsplit : splitOnChar ',' (l.data ++ ',' :: r.data) = [l.data, r.data] := by
    rw [splitOnChar_boundary ',' _ _ h2, splitOnChar_of_not_mem ',' _ h3]
  simp [hsplit, strOfList_data]

/-- C8: `find` parses a well-formed `name(left,right)` signature with the
same rules as the desired-state key parser and returns exactly the
collection lookup at the parsed key — `some` entity when the
`(schema, name, leftarg, rightarg)` key is present, `none` otherwise,
and no error for a well-formed but absent signature. -/
theorem find_wellformed (d : OperColl) (nm l r : String)
    (hdot : '.' ∉ (nm ++ "(" ++ l ++ "," ++ r ++ ")").data)
    (h1 : '(' ∉ nm.data) (h2 : ',' ∉ l.data) (h3 : ',' ∉ r.data)
    (h4 : pyLstrip r.data = r.data) :
    OperatorDict.find d (nm ++ "(" ++ l ++ "," ++ r ++ ")")
      = lookupKey d ("public", nm, [l, r]) ∧
    split_func_args (nm ++ "(" ++ l ++ "," ++ r ++ ")") = some (nm, [l, r]) ∧
    parseOperKey ("operator " ++ (nm ++ "(" ++ l ++ "," ++ r ++ ")"))
      = .ok (nm, l, r) := by
  have hsig := sig_data nm l r
  have hsfa := split_func_args_ok _ nm l r hsig h1 h2 h3
  rw [h4, strOfList_data] at hsfa
  refine ⟨?_, hsfa, ?_⟩
  · unfold OperatorDict.find split_schema_obj
    rw [pySplitFirst_eq_none_of_not_mem hdot]
    simp only [Option.getD]
    rw [hsfa]
  · have hkey : ("operator " ++ (nm ++ "(" ++ l ++ "," ++ r ++ ")")).data
        = "operator".data ++ ' ' ::
            (nm.data ++ '(' :: ((l.data ++ ',' :: r.data) ++ [')'])) := by
      rw [op_space_append, hsig]
    have hp := parseOperKey_ok _ nm l r hkey h1 h2 h3
    rw [hp, h4, strOfList_data]

/-- A sample entity for the concrete `find` lookup. -/
def c8entity : Operator :=
  { schema := "public", name := "#>=#", leftarg := "hstore", rightarg := "hstore",
    procedure := some "hstore_ge" }

/-- C8 witness: the docstring signature `#>=#(hstore,hstore)` retrieves
the entity stored under `(public, #>=#, hstore, hstore)`. -/
theorem find_wellformed_witness :
    OperatorDict.find [(("public", "#>=#", ["hstore", "hstore"]), c8entity)]
        ("#>=#" ++ "(" ++ "hstore" ++ "," ++ "hstore" ++ ")")
      = some c8entity :=
  ((find_wellformed [(("public", "#>=#", ["hstore", "hstore"]), c8entity)]
      "#>=#" "hstore" "hstore"
      (by decide) (by decide) (by decide) (by decide) (by decide)).1).trans (by rfl)

/-- C1: the CREATE statement lists `PROCEDURE` first and mandatorily,
and then exactly the applicable optional clauses, joined in the fixed
order LEFTARG, RIGHTARG, COMMUTATOR, NEGATOR, RESTRICT, JOIN, HASHES,
MERGES given by `specClauses`: LEFTARG/RIGHTARG iff the operand is not
`NONE`, COMMUTATOR/NEGATOR/RESTRICT/JOIN iff present, HASHES/MERGES iff
present and true. -/
theorem create_clause_layout (op : Operator) (proc : String)
    (h : op.procedure = some proc) :
    op.create = some ["CREATE OPERATOR " ++ op.qualname ++
      " (\n    PROCEDURE = " ++ proc ++
      (if specClauses op = [] then "" else ",\n    ") ++
      String.intercalate ",\n    " (specClauses op) ++ ")"] := by
  simp only [Operator.create, h, Option.map_some', optClauses_eq_specClauses]
  cases hc : specClauses op <;> simp [hc]

/-- An operator exercising every clause kind of the CREATE statement. -/
def c1op : Operator :=
  { schema := "s", name := "&&&", leftarg := "box", rightarg := "NONE",
    procedure := some "box_over", commutator := some "&&&",
    restrict := some "sel", hashes := some true, merges := some false }

/-- C1 witness: the layout theorem applied to a concrete operator. -/
theorem create_clause_layout_witness :
    c1op.create = some ["CREATE OPERATOR " ++ c1op.qualname ++
      " (\n    PROCEDURE = " ++ "box_over" ++
      (if specClauses c1op = [] then "" else ",\n    ") ++
      String.intercalate ",\n    " (specClauses c1op) ++ ")"] :=
  create_clause_layout c1op "box_over" rfl

/-- C3 (amended): catalog-row normalization: operands `-` become the
sentinel `NONE` (and are kept otherwise); a commutator/negator of `0`
and a restrict/join of `-` are removed (and kept otherwise); the
hashes/merges booleans are stored unconditionally — a false flag stays
on the entity — and a false flag is treated as absent by the
definition generator (it contributes no clause, exactly as if the field
were missing). -/
theorem from_catalog_normalization (row : CatalogRow) :
    (row.leftarg = "-" → (rowToOperator row).leftarg = "NONE") ∧
    (row.leftarg ≠ "-" → (rowToOperator row).leftarg = row.leftarg) ∧
    (row.rightarg = "-" → (rowToOperator row).rightarg = "NONE") ∧
    (row.rightarg ≠ "-" → (rowToOperator row).rightarg = row.rightarg) ∧
    (row.commutator = "0" → (rowToOperator row).commutator = none) ∧
    (row.commutator ≠ "0" → (rowToOperator row).commutator = some row.commutator) ∧
    (row.negator = "0" → (rowToOperator row).negator = none) ∧
    (row.negator ≠ "0" → (rowToOperator row).negator = some row.negator) ∧
    (row.restrict = "-" → (rowToOperator row).restrict = none) ∧
    (row.restrict ≠ "-" → (rowToOperator row).restrict = some row.restrict) ∧
    (row.join = "-" → (rowToOperator row).join = none) ∧
    (row.join ≠ "-" → (rowToOperator row).join = some row.join) ∧
    ((rowToOperator row).hashes = some row.hashes) ∧
    ((rowToOperator row).merges = some row.merges) ∧
    (row.hashes = false →
      Operator.optClauses (rowToOperator row)
        = Operator.optClauses { rowToOperator row with hashes := none }) ∧
    (row.merges = false →
      Operator.optClauses (rowToOperator row)
        = Operator.optClauses { rowToOperator row with merges := none }) := by
  refine ⟨fun h => by simp [rowToOperator, h], fun h => by simp [rowToOperator, h],
    fun h => by simp [rowToOperator, h], fun h => by simp [rowToOperator, h],
    fun h => by simp [rowToOperator, h], fun h => by simp [rowToOperator, h],
    fun h => by simp [rowToOperator, h], fun h => by simp [rowToOperator, h],
    fun h => by simp [rowToOperator, h], fun h => by simp [rowToOperator, h],
    fun h => by simp [rowToOperator, h], fun h => by simp [rowToOperator, h],
    by simp [rowToOperator], by simp [rowToOperator], ?_, ?_⟩
  · intro h
    rw [optClauses_eq_specClauses, optClauses_eq_specClauses]
    simp [specClauses, rowToOperator, h]
  · intro h
    rw [optClauses_eq_specClauses, optClauses_eq_specClauses]
    simp [specClauses, rowToOperator, h]

/-- A catalog row with sentinel operands, a no-value commutator and
false capability flags. -/
def c3row : CatalogRow :=
  { oid := 1, schema := "s", name := "!", owner := "o", leftarg := "-",
    rightarg := "int4", procedure := "f", commutator := "0",
    negator := "!!", restrict := "-", join := "j", hashes := false,
    merges := false }

/-- C3 counterexample: a false `hashes` flag is stored on the loaded
entity (as the attribute value `false`), not absent as the claim
states. -/
theorem from_catalog_false_flag_stored_cex :
    c3row.hashes = false ∧ (rowToOperator c3row).hashes ≠ none := by decide

/-- C3 witness: the amended normalization at the concrete row. -/
theorem from_catalog_normalization_witness :
    (rowToOperator c3row).leftarg = "NONE" ∧
    (rowToOperator c3row).commutator = none ∧
    (rowToOperator c3row).restrict = none ∧
    (rowToOperator c3row).hashes = some false ∧
    Operator.optClauses (rowToOperator c3row)
      = Operator.optClauses { rowToOperator c3row with hashes := none } := by
  obtain ⟨p1, _, _, _, p5, _, _, _, p9, _, _, _, p13, _, p15, _⟩ :=
    from_catalog_normalization c3row
  exact ⟨p1 rfl, p5 rfl, p9 rfl, p13, p15 rfl⟩

/-- C5 (amended): `qualname` returns the bare name when the schema is
`public` and the name is non-empty; for a non-`public` schema it returns
the quoted schema, a dot and the name; with schema `public` and an empty
name the Python `and`/`or` chain falls through to the qualified form.
`identifier` is always `qualname` followed by the parenthesized operand
pair; on the hstore example the spec's concrete values hold. -/
theorem qualname_identifier_spec (op : Operator) :
    (op.schema = "public" → op.name ≠ "" → op.qualname = op.name) ∧
    (op.schema ≠ "public" →
      op.qualname = quote_id op.schema ++ "." ++ op.name) ∧
    (op.schema = "public" → op.name = "" →
      op.qualname = quote_id "public" ++ "." ++ op.name) ∧
    op.identifier = op.qualname ++ "(" ++ op.leftarg ++ ", " ++ op.rightarg ++ ")" ∧
    Operator.identifier
        { schema := "public", name := "#>=#", leftarg := "hstore", rightarg := "hstore" }
      = "#>=#(hstore, hstore)" ∧
    Operator.qualname
        { schema := "public", name := "#>=#", leftarg := "hstore", rightarg := "hstore" }
      = "#>=#" := by
  refine ⟨?_, ?_, ?_, rfl, by decide, by decide⟩
  · intro ha hb; simp [Operator.qualname, ha, hb]
  · intro ha; simp [Operator.qualname, ha]
  · intro ha hb; simp [Operator.qualname, ha, hb]

/-- An operator with schema `public` and an empty name. -/
def c5op : Operator := { schema := "public", name := "", leftarg := "a", rightarg := "b" }

/-- C5 counterexample: with schema `public` and an empty name,
`qualname` does not return the bare name. -/
theorem qualname_not_bare_name_cex :
    c5op.schema = "public" ∧ c5op.qualname ≠ c5op.name := by decide

/-- C5 witness: the amended statement applied at a non-public schema. -/
theorem qualname_identifier_spec_witness :
    Operator.qualname { schema := "myschema", name := "+", leftarg := "a", rightarg := "b" }
      = quote_id "myschema" ++ "." ++ "+" :=
  (qualname_identifier_spec
    { schema := "myschema", name := "+", leftarg := "a", rightarg := "b" }).2.1
    (by decide)

/-- C6 (amended): dependency resolution: the procedure is split into
schema and name, looked up with the comma-space join of the non-`NONE`
operand types, and added only if found; a present and *non-empty*
restrict is resolved with the fixed signature
`internal, oid, internal, integer` and added only if found (the code
tests the attribute's truthiness, so an empty-string restrict is
skipped); and when both operands are `NONE` (and the types collection
holds nothing under the sentinel name) the operand steps contribute
nothing while the procedure is still looked up with an empty
argument-type list. -/
theorem get_implied_deps_resolution (db : Database) (op : Operator) (proc : String)
    (h : op.procedure = some proc) :
    op.get_implied_deps db
      = some (List.foldl addDep [] (depCandidates db op proc)) ∧
    (op.leftarg = "NONE" → op.rightarg = "NONE" → db.types "NONE" = none →
      op.get_implied_deps db
        = some (List.foldl addDep []
            ((if db.functions ((split_schema_obj proc (some op.schema)).1,
                  (split_schema_obj proc (some op.schema)).2, "")
              then [DepObj.func (split_schema_obj proc (some op.schema)).1
                      (split_schema_obj proc (some op.schema)).2 ""]
              else []) ++ restrictCandidates db op))) := by
  have main := get_implied_deps_eq_foldl db op proc h
  refine ⟨main, ?_⟩
  intro hl hr hnone
  rw [main]
  have hemp : String.intercalate ", " ([] : List String) = "" := rfl
  simp [depCandidates, procCandidates, hl, hr, hnone, hemp]

/-- An operator with a present but empty restrict attribute. -/
def c6op : Operator :=
  { schema := "s", name := "%%", leftarg := "int4", rightarg := "int4",
    procedure := some "f", restrict := some "" }

/-- A database in which every function lookup succeeds. -/
def c6db : Database := { types := fun _ => none, functions := fun _ => true }

/-- C6 counterexample: the restrict attribute is present (the empty
string) and the helper lookup at the fixed signature would succeed, yet
no dependency is added — the code tests the attribute's truthiness, not
its presence. -/
theorem get_implied_deps_restrict_cex :
    c6op.restrict.isSome = true ∧
    c6db.functions ("public", "", restrictArgs) = true ∧
    DepObj.func "public" "" restrictArgs
      ∉ (c6op.get_implied_deps c6db).getD [] := by decide

/-- A degenerate operator with both operands `NONE`. -/
def c6wop : Operator :=
  { schema := "s", name := "!", leftarg := "NONE", rightarg := "NONE",
    procedure := some "fact" }

/-- A database holding exactly the function `s.fact()` with no
arguments. -/
def c6wdb : Database :=
  { types := fun _ => none, functions := fun k => k = ("s", "fact", "") }

/-- C6 witness: with both operands `NONE` the procedure is resolved with
the empty argument-type list and is the only dependency. -/
theorem get_implied_deps_resolution_witness :
    c6wop.get_implied_deps c6wdb = some [DepObj.func "s" "fact" ""] := by
  have h := (get_implied_deps_resolution c6wdb c6wop "fact" rfl).2 rfl rfl rfl
  rw [h]
  decide

lemma depCandidates_no_oper (db : Database) (op : Operator) (proc : String)
    (s n l r : String) : DepObj.oper s n l r ∉ depCandidates db op proc := by
  unfold depCandidates procCandidates restrictCandidates
  rcases db.types op.leftarg with _ | t1 <;>
  rcases db.types op.rightarg with _ | t2 <;>
  rcases op.restrict with _ | rr <;>
  (try split_ifs) <;> simp

lemma depCandidates_all_miss (db : Database) (op : Operator) (proc : String)
    (ht : ∀ s, db.types s = none) (hf : ∀ k, db.functions k = false) :
    depCandidates db op proc = [] := by
  rcases hres : op.restrict with _ | rr <;>
    simp [depCandidates, procCandidates, restrictCandidates, ht, hf, hres]

/-- C7: for any sibling collections the extracted dependencies form a
duplicate-free set that never contains the entity itself (indeed, no
operator reference at all), and lookup misses are tolerated silently:
the extraction is total, and when every lookup misses the result is the
empty set rather than an error. -/
theorem get_implied_deps_set_invariants (db : Database) (op : Operator)
    (proc : String) (h : op.procedure = some proc) :
    ∃ deps, op.get_implied_deps db = some deps ∧ deps.Nodup ∧
      DepObj.oper op.schema op.name op.leftarg op.rightarg ∉ deps ∧
      ((∀ s, db.types s = none) → (∀ k, db.functions k = false) → deps = []) := by
  refine ⟨_, get_implied_deps_eq_foldl db op proc h,
    foldl_addDep_nodup _ _ (by simp), ?_, ?_⟩
  · intro hmem
    rcases mem_foldl_addDep _ _ _ hmem with h' | h'
    · simp at h'
    · exact depCandidates_no_oper db op proc _ _ _ _ h'
  · intro ht hf
    rw [depCandidates_all_miss db op proc ht hf]
    rfl

/-- A database in which every lookup misses. -/
def c7db : Database := { types := fun _ => none, functions := fun _ => false }

/-- A plain binary operator for the invariants witness. -/
def c7op : Operator :=
  { schema := "s", name := "+", leftarg := "int4", rightarg := "int4",
    procedure := some "int4pl" }

/-- C7 witness: the invariants at a concrete operator and the all-miss
database. -/
theorem get_implied_deps_set_invariants_witness :
    ∃ deps, c7op.get_implied_deps c7db = some deps ∧ deps.Nodup ∧
      DepObj.oper c7op.schema c7op.name c7op.leftarg c7op.rightarg ∉ deps ∧
      ((∀ s, c7db.types s = none) → (∀ k, c7db.functions k = false) → deps = []) :=
  get_implied_deps_set_invariants c7db c7op "int4pl" rfl

end Pyrseas
